import Mathlib

/-!
Verification of the kmod transfer hub (`src/kmo/kmo_comm.c`, `src/kmo/kmo_comm.h`).

Shallow embedding conventions:
* Time is measured in microseconds as a `Nat`; a C `struct timeval` with fields
  `(tv_sec, tv_usec)` is flattened to `tv_sec * 1000000 + tv_usec`.  The time
  helpers `util_get_current_time`, `util_timeval_add`, `util_timeval_subtract`
  and `util_timeval_cmp` live in `utils.c`, outside the provided sources; the
  spec directs to treat them as standard monotonic-time arithmetic, which on the
  flattened representation is plain `Nat` addition, truncated subtraction and
  comparison.
* `uint32_t` fields are `Nat`s that denote values below `2^32`; the two places
  where the C code does `uint32_t` arithmetic (`max_len - trans_len` and
  `trans_len += nb`) use the explicit wrap-around operations `u32sub`/`u32add`.
* A driver call `transfer_func(fd, buf + trans_len, &nb)` returning `0` with an
  updated byte count, `-2`, or `-1` with an error string, is modelled by
  `DriverResult.success n`, `.wouldBlock` and `.failed msg`.  The environment of
  one pass of the wait loop supplies the readiness outcome of `select()` per
  (descriptor, direction), the driver outcome per (descriptor, direction,
  requested count), and the current time read after `select()` returns.
* The transfer hash (`khash`) keyed on transfer pointers is modelled as an
  association list from a numeric transfer identity to the transfer state.
* Buffer contents are not modelled: no claim concerns the bytes themselves,
  only how many are moved and what range the hub requests.
-/

/-- Status codes for `kmo_data_transfer` (the anonymous enum in `kmo_comm.h`):
`KMO_COMM_TRANS_NONE`, `KMO_COMM_TRANS_PENDING`, `KMO_COMM_TRANS_COMPLETED`,
`KMO_COMM_TRANS_ERROR`. -/
inductive TransStatus where
  | NONE
  | PENDING
  | COMPLETED
  | ERROR
deriving DecidableEq, Repr

/-- Outcome of a driver `read_data`/`write_data` call: return value `0` with the
actual transferred count (`success`), `-2` (`wouldBlock`), or `-1` with the KMO
error string set (`failed`). -/
inductive DriverResult where
  | success (n : Nat)
  | wouldBlock
  | failed (msg : String)
deriving DecidableEq, Repr

/-- `2^32`, the modulus of the C `uint32_t` fields. -/
def U32 : Nat := 4294967296

/-- `uint32_t` addition. -/
def u32add (a b : Nat) : Nat := (a + b) % U32

/-- `uint32_t` subtraction `a - b`, for representatives `a b < U32`. -/
def u32sub (a b : Nat) : Nat := (a + U32 - b) % U32

/-- One `struct kmo_data_transfer` (without the `buf` pointer and the driver
function pointers, which live in the per-pass environment).  Field names follow
the C structure. -/
structure Transfer where
  read_flag : Bool
  fd : Int
  min_len : Nat
  max_len : Nat
  trans_len : Nat
  op_timeout : Nat
  status : TransStatus
  deadline : Nat
  err_msg : Option String
deriving DecidableEq, Repr

/-- The timeval `{ tv_sec = 2147483647, tv_usec = 0 }` used by
`kmo_transfer_hub_add` for transfers without a timeout and as the initial
accumulator of the deadline scan in `kmo_transfer_hub_wait` (line 94),
flattened to microseconds. -/
def TIME_MAX : Nat := 2147483647 * 1000000

/-- The deadline computed from `op_timeout` (milliseconds) at current time
`now`: `tv_sec = op_timeout / 1000`, `tv_usec = (op_timeout % 1000) * 1000`,
then `util_timeval_add` with `now`, flattened to microseconds. -/
def deadline_from_timeout (op_timeout now : Nat) : Nat :=
  op_timeout / 1000 * 1000000 + op_timeout % 1000 * 1000 + now

/-- The mutation `kmo_transfer_hub_add` performs on the transfer object
(lines 46-68 of `kmo_comm.c`): `trans_len = 0`, `status = PENDING`, deadline
from the timeout or `TIME_MAX` when `op_timeout == 0`, stale error cleared. -/
def transfer_add_init (t : Transfer) (now : Nat) : Transfer :=
  { t with
    trans_len := 0
    status := .PENDING
    deadline := if t.op_timeout ≠ 0 then deadline_from_timeout t.op_timeout now else TIME_MAX
    err_msg := none }

/-- The transfer hash of `struct kmo_transfer_hub`: an association list from
the transfer identity (the pointer in C) to the transfer state. -/
abbrev Hub := List (Nat × Transfer)

/-- `khash_exist(&hub->transfer_hash, transfer)`. -/
def khash_exist (hub : Hub) (id : Nat) : Bool :=
  hub.any fun p => decide (p.1 = id)

/-- Reading the state of the transfer registered under `id`, if any. -/
def hub_lookup (hub : Hub) (id : Nat) : Option Transfer :=
  (hub.find? fun p => decide (p.1 = id)).map Prod.snd

/-- `kmo_transfer_hub_add`: inserts the (re)initialized transfer into the hash.
The C `assert`s (not already a member, driver operations set, `fd != -1`,
`min_len <= max_len`) become hypotheses of the theorems below. -/
def kmo_transfer_hub_add (hub : Hub) (id : Nat) (t : Transfer) (now : Nat) : Hub :=
  hub ++ [(id, transfer_add_init t now)]

/-- `kmo_transfer_hub_remove`: `khash_remove(&hub->transfer_hash, transfer)`,
which drops the entry when present and does nothing otherwise.  The transfer
state itself is not touched. -/
def kmo_transfer_hub_remove (hub : Hub) (id : Nat) : Hub :=
  hub.filter fun p => decide (p.1 ≠ id)

/-- `kmo_data_transfer_err` (`kmo_comm.h` lines 129-132):
`self->err_msg ? self->err_msg->data : "timeout occurred"`.  The
`assert(status == KMO_COMM_TRANS_ERROR)` becomes a hypothesis where needed. -/
def kmo_data_transfer_err (t : Transfer) : String :=
  match t.err_msg with
  | some m => m
  | none => "timeout occurred"

/-- The scan condition of `kmo_transfer_hub_wait` (lines 109-110): a member is
selected for processing when its status is `PENDING`, or `COMPLETED` with
`min_len < max_len`. -/
def selected (t : Transfer) : Bool :=
  decide (t.status = .PENDING ∨ (t.status = .COMPLETED ∧ t.min_len < t.max_len))

/-- Whether some member has status `PENDING`: after the scan, `done_flag == 0`
exactly when such a member exists (line 113-115); the loop breaks at line 137
otherwise. -/
def hasPending (hub : Hub) : Bool :=
  hub.any fun p => decide (p.2.status = .PENDING)

/-- The deadline computed by the scan (lines 94 and 126-128): starting from
`TIME_MAX`, replace the accumulator by the deadline of each selected member
that is strictly smaller. -/
def scanDeadline (hub : Hub) : Nat :=
  hub.foldl (fun d p => if selected p.2 = true ∧ p.2.deadline < d then p.2.deadline else d)
    TIME_MAX

/-- The relative duration handed to `select()` (lines 140-154): at least one
millisecond; if `now + 1ms` is at or past the scan deadline the wait is exactly
`1ms`, otherwise it is `deadline - now`. -/
def timeToWait (hub : Hub) (now : Nat) : Nat :=
  if scanDeadline hub ≤ now + 1000 then 1000 else scanDeadline hub - now

/-- Environment of one pass of the wait loop: the readiness outcome of
`select()` per (descriptor, direction), the driver outcome per (descriptor,
direction, requested count), and the current time read at line 173 after
`select()` returned. -/
structure WaitEnv where
  ready : Int → Bool → Bool
  drv : Int → Bool → Nat → DriverResult
  now : Nat

/-- The deadline reset of lines 217-222: when `op_timeout` is nonzero the
deadline is recomputed from the timeout relative to `now`. -/
def reset_deadline (t : Transfer) (now : Nat) : Transfer :=
  if t.op_timeout ≠ 0 then { t with deadline := deadline_from_timeout t.op_timeout now } else t

/-- Processing of one selected transfer after `select()` returns (lines
175-236): if the descriptor is ready, request `max_len - trans_len` bytes from
the driver when that is nonzero (otherwise the outcome is an implicit success
with zero bytes); a failure stores the error and sets `ERROR`, would-block
leaves the transfer untouched, success accumulates the count, completes a
`PENDING` transfer that reached `min_len`, and resets the deadline.  If the
descriptor is not ready and the deadline lies strictly in the past, the
transfer times out: `ERROR` with `err_msg` left as is.  The returned `Bool`
tells whether `done_flag` was raised for this transfer. -/
def wait_process_transfer (e : WaitEnv) (t : Transfer) : Transfer × Bool :=
  if e.ready t.fd t.read_flag then
    match (if 0 < u32sub t.max_len t.trans_len
        then e.drv t.fd t.read_flag (u32sub t.max_len t.trans_len)
        else DriverResult.success 0) with
    | .failed msg => ({ t with status := .ERROR, err_msg := some msg }, true)
    | .wouldBlock => (t, false)
    | .success n =>
      if t.status = .PENDING ∧ t.min_len ≤ u32add t.trans_len n then
        (reset_deadline { t with trans_len := u32add t.trans_len n, status := .COMPLETED } e.now,
          true)
      else
        (reset_deadline { t with trans_len := u32add t.trans_len n } e.now, false)
  else
    if t.deadline < e.now then ({ t with status := .ERROR }, true)
    else (t, false)

/-- The resolve loop (lines 175-236) over the whole membership: every selected
member is processed, the others are untouched; the returned flag is the
`done_flag` accumulated over the pass. -/
def wait_resolve (e : WaitEnv) : Hub → Hub × Bool
  | [] => ([], false)
  | p :: rest =>
    let hd := if selected p.2 = true then
        let q := wait_process_transfer e p.2
        ((p.1, q.1), q.2)
      else (p, false)
    let r := wait_resolve e rest
    (hd.1 :: r.1, hd.2 || r.2)

/-- `kmo_transfer_hub_wait`, fuel-bounded: each iteration of the `while` loop
first breaks when no member is `PENDING` (lines 102-138), otherwise blocks on
`select()` once and resolves the pass with the environment of that pass.  The
returned `Nat` counts the `select()` calls performed, so `0` means the call
returned without ever blocking on the multiplexing primitive. -/
def kmo_transfer_hub_wait (envs : Nat → WaitEnv) : Nat → Hub → Hub × Nat
  | 0, hub => (hub, 0)
  | fuel + 1, hub =>
    if hasPending hub = true then
      let r := wait_resolve (envs fuel) hub
      if r.2 = true then (r.1, 1)
      else
        let w := kmo_transfer_hub_wait envs fuel r.1
        (w.1, w.2 + 1)
    else (hub, 0)

/-- The driver contract of the spec: a `success` outcome reports an actual
count no larger than the requested count. -/
def EnvHonest (e : WaitEnv) : Prop :=
  ∀ fd rf req n, e.drv fd rf req = .success n → n ≤ req

/-- The representation invariant of the `uint32_t` length fields: the progress
count never exceeds `max_len`, and `max_len` is a `uint32_t` value. -/
def lenWF (t : Transfer) : Prop := t.trans_len ≤ t.max_len ∧ t.max_len < U32

/-! ### Basic arithmetic and list lemmas -/

theorem u32sub_eq_sub {a b : Nat} (hb : b ≤ a) (ha : a < U32) : u32sub a b = a - b := by
  unfold u32sub U32 at *
  have h1 : a + 4294967296 - b = (a - b) + 4294967296 := by omega
  rw [h1, Nat.add_mod_right, Nat.mod_eq_of_lt (by omega)]

theorem u32add_eq_add {a b : Nat} (h : a + b < U32) : u32add a b = a + b := by
  unfold u32add
  exact Nat.mod_eq_of_lt h

theorem deadline_from_timeout_eq (T now : Nat) :
    deadline_from_timeout T now = T * 1000 + now := by
  unfold deadline_from_timeout
  omega

theorem wait_resolve_eq (e : WaitEnv) (hub : Hub) :
    wait_resolve e hub =
      (hub.map fun p => (p.1, if selected p.2 = true then (wait_process_transfer e p.2).1 else p.2),
       hub.any fun p => selected p.2 && (wait_process_transfer e p.2).2) := by
  induction hub with
  | nil => rfl
  | cons p rest ih =>
    by_cases h : selected p.2 = true <;>
      simp [wait_resolve, ih, h]

theorem hub_lookup_map (hub : Hub) (g : Transfer → Transfer) (id : Nat) :
    hub_lookup (hub.map fun p => (p.1, g p.2)) id = (hub_lookup hub id).map g := by
  induction hub with
  | nil => rfl
  | cons p rest ih =>
    by_cases h : p.1 = id <;>
      simp [hub_lookup, List.find?_cons, h] <;>
      simpa [hub_lookup] using ih

theorem hub_lookup_mem {hub : Hub} {id : Nat} {t : Transfer}
    (h : hub_lookup hub id = some t) : (id, t) ∈ hub := by
  unfold hub_lookup at h
  obtain ⟨p, hp, hpt⟩ := Option.map_eq_some'.1 h
  have hmem := List.mem_of_find?_eq_some hp
  have hpred := List.find?_some hp
  have : p.1 = id := by simpa using hpred
  cases p
  simp only at hpt this
  subst hpt this
  exact hmem

theorem scanFold_le_init (hub : Hub) (d : Nat) :
    hub.foldl (fun d p => if selected p.2 = true ∧ p.2.deadline < d then p.2.deadline else d) d
      ≤ d := by
  induction hub generalizing d with
  | nil => exact le_refl d
  | cons q rest ih =>
    simp only [List.foldl]
    split
    · exact le_trans (ih _) (le_of_lt (by omega))
    · exact ih d

theorem scanFold_le_sel (hub : Hub) (d : Nat) :
    ∀ p ∈ hub, selected p.2 = true →
      hub.foldl (fun d p => if selected p.2 = true ∧ p.2.deadline < d then p.2.deadline else d) d
        ≤ p.2.deadline := by
  induction hub generalizing d with
  | nil => intro p hp; cases hp
  | cons q rest ih =>
    intro p hp hsel
    simp only [List.foldl]
    rcases List.mem_cons.1 hp with rfl | hmem
    · split
      · exact scanFold_le_init rest _
      · rename_i hcond
        have : ¬ p.2.deadline < d := fun h => hcond ⟨hsel, h⟩
        exact le_trans (scanFold_le_init rest d) (by omega)
    · exact ih _ p hmem hsel

theorem scanFold_attained (hub : Hub) (d : Nat) :
    hub.foldl (fun d p => if selected p.2 = true ∧ p.2.deadline < d then p.2.deadline else d) d
        = d ∨
      ∃ p ∈ hub, selected p.2 = true ∧
        hub.foldl (fun d p => if selected p.2 = true ∧ p.2.deadline < d then p.2.deadline else d) d
          = p.2.deadline := by
  induction hub generalizing d with
  | nil => exact Or.inl rfl
  | cons q rest ih =>
    simp only [List.foldl]
    split
    · rename_i hcond
      rcases ih q.2.deadline with h | ⟨p, hp, hsel, hval⟩
      · exact Or.inr ⟨q, List.mem_cons_self q rest, hcond.1, h⟩
      · exact Or.inr ⟨p, List.mem_cons_of_mem q hp, hsel, hval⟩
    · rcases ih d with h | ⟨p, hp, hsel, hval⟩
      · exact Or.inl h
      · exact Or.inr ⟨p, List.mem_cons_of_mem q hp, hsel, hval⟩

/-! ### Case characterizations of one readiness cycle -/

theorem wpt_not_ready_live (e : WaitEnv) (t : Transfer)
    (hr : e.ready t.fd t.read_flag = false) (hd : ¬ t.deadline < e.now) :
    wait_process_transfer e t = (t, false) := by
  unfold wait_process_transfer
  rw [if_neg (by simp [hr]), if_neg hd]

theorem wpt_not_ready_expired (e : WaitEnv) (t : Transfer)
    (hr : e.ready t.fd t.read_flag = false) (hd : t.deadline < e.now) :
    wait_process_transfer e t = ({ t with status := .ERROR }, true) := by
  unfold wait_process_transfer
  rw [if_neg (by simp [hr]), if_pos hd]

theorem wpt_ready_failed (e : WaitEnv) (t : Transfer) (msg : String)
    (hr : e.ready t.fd t.read_flag = true)
    (hnb : 0 < u32sub t.max_len t.trans_len)
    (hres : e.drv t.fd t.read_flag (u32sub t.max_len t.trans_len) = .failed msg) :
    wait_process_transfer e t = ({ t with status := .ERROR, err_msg := some msg }, true) := by
  unfold wait_process_transfer
  rw [if_pos hr, if_pos hnb, hres]

theorem wpt_ready_wouldBlock (e : WaitEnv) (t : Transfer)
    (hr : e.ready t.fd t.read_flag = true)
    (hnb : 0 < u32sub t.max_len t.trans_len)
    (hres : e.drv t.fd t.read_flag (u32sub t.max_len t.trans_len) = .wouldBlock) :
    wait_process_transfer e t = (t, false) := by
  unfold wait_process_transfer
  rw [if_pos hr, if_pos hnb, hres]

theorem wpt_ready_success (e : WaitEnv) (t : Transfer) (n : Nat)
    (hr : e.ready t.fd t.read_flag = true)
    (hres : (if 0 < u32sub t.max_len t.trans_len
        then e.drv t.fd t.read_flag (u32sub t.max_len t.trans_len)
        else .success 0) = .success n) :
    wait_process_transfer e t =
      if t.status = .PENDING ∧ t.min_len ≤ u32add t.trans_len n then
        (reset_deadline { t with trans_len := u32add t.trans_len n, status := .COMPLETED } e.now,
          true)
      else
        (reset_deadline { t with trans_len := u32add t.trans_len n } e.now, false) := by
  unfold wait_process_transfer
  rw [if_pos hr, hres]

@[simp] theorem reset_deadline_trans_len (t : Transfer) (now : Nat) :
    (reset_deadline t now).trans_len = t.trans_len := by
  unfold reset_deadline; split <;> rfl

@[simp] theorem reset_deadline_max_len (t : Transfer) (now : Nat) :
    (reset_deadline t now).max_len = t.max_len := by
  unfold reset_deadline; split <;> rfl

@[simp] theorem reset_deadline_min_len (t : Transfer) (now : Nat) :
    (reset_deadline t now).min_len = t.min_len := by
  unfold reset_deadline; split <;> rfl

@[simp] theorem reset_deadline_status (t : Transfer) (now : Nat) :
    (reset_deadline t now).status = t.status := by
  unfold reset_deadline; split <;> rfl

@[simp] theorem reset_deadline_err_msg (t : Transfer) (now : Nat) :
    (reset_deadline t now).err_msg = t.err_msg := by
  unfold reset_deadline; split <;> rfl

theorem wait_process_mono (e : WaitEnv) (t : Transfer) (hH : EnvHonest e) (hwf : lenWF t) :
    t.trans_len ≤ (wait_process_transfer e t).1.trans_len ∧
      (wait_process_transfer e t).1.max_len = t.max_len ∧
      lenWF (wait_process_transfer e t).1 := by
  obtain ⟨h1, h2⟩ := hwf
  by_cases hr : e.ready t.fd t.read_flag = true
  · by_cases hnb : 0 < u32sub t.max_len t.trans_len
    · cases hres : e.drv t.fd t.read_flag (u32sub t.max_len t.trans_len) with
      | failed msg =>
        rw [wpt_ready_failed e t msg hr hnb hres]
        exact ⟨le_refl _, rfl, h1, h2⟩
      | wouldBlock =>
        rw [wpt_ready_wouldBlock e t hr hnb hres]
        exact ⟨le_refl _, rfl, h1, h2⟩
      | success n =>
        have hn : n ≤ u32sub t.max_len t.trans_len := hH _ _ _ _ hres
        rw [u32sub_eq_sub h1 h2] at hn
        have hadd : u32add t.trans_len n = t.trans_len + n := u32add_eq_add (by omega)
        rw [wpt_ready_success e t n hr (by rw [if_pos hnb, hres])]
        split <;> simp [lenWF, hadd] <;> omega
    · have hadd : u32add t.trans_len 0 = t.trans_len + 0 := u32add_eq_add (by omega)
      rw [wpt_ready_success e t 0 hr (by rw [if_neg hnb])]
      split <;> simp [lenWF, hadd] <;> omega
  · rw [Bool.not_eq_true] at hr
    by_cases hd : t.deadline < e.now
    · rw [wpt_not_ready_expired e t hr hd]
      exact ⟨le_refl _, rfl, h1, h2⟩
    · rw [wpt_not_ready_live e t hr hd]
      exact ⟨le_refl _, rfl, h1, h2⟩

/-! ### Hub-level lemmas -/

theorem hub_lookup_append_not_mem (hub : Hub) (id : Nat) (t : Transfer)
    (h : khash_exist hub id = false) :
    hub_lookup (hub ++ [(id, t)]) id = some t := by
  induction hub with
  | nil => simp [hub_lookup]
  | cons p rest ih =>
    unfold khash_exist at h ih
    simp only [List.any_cons, Bool.or_eq_false_iff] at h
    have hp : ¬ p.1 = id := by simpa using h.1
    simpa [hub_lookup, List.find?_cons, hp] using ih h.2

theorem filter_ne_of_not_exist (hub : Hub) (id : Nat) (h : khash_exist hub id = false) :
    kmo_transfer_hub_remove hub id = hub := by
  induction hub with
  | nil => rfl
  | cons p rest ih =>
    unfold khash_exist at h ih
    simp only [List.any_cons, Bool.or_eq_false_iff] at h
    have hp : decide (p.1 ≠ id) = true := by
      simp only [decide_eq_true_eq]
      intro hc
      simp [hc] at h
    have ihr := ih h.2
    unfold kmo_transfer_hub_remove at ihr ⊢
    rw [List.filter_cons, if_pos hp, ihr]

theorem khash_exist_false_lookup (hub : Hub) (id : Nat) (h : khash_exist hub id = false) :
    hub_lookup hub id = none := by
  induction hub with
  | nil => rfl
  | cons p rest ih =>
    unfold khash_exist at h ih
    simp only [List.any_cons, Bool.or_eq_false_iff] at h
    have hp : ¬ p.1 = id := by simpa using h.1
    simpa [hub_lookup, List.find?_cons, hp] using ih h.2

theorem wait_resolve_fst (e : WaitEnv) (hub : Hub) :
    (wait_resolve e hub).1 =
      hub.map fun p =>
        (p.1, if selected p.2 = true then (wait_process_transfer e p.2).1 else p.2) := by
  rw [wait_resolve_eq]

theorem wait_resolve_lookup (e : WaitEnv) (hub : Hub) (id : Nat) :
    hub_lookup (wait_resolve e hub).1 id =
      (hub_lookup hub id).map
        fun t => if selected t = true then (wait_process_transfer e t).1 else t := by
  rw [wait_resolve_fst]
  exact hub_lookup_map hub
    (fun t => if selected t = true then (wait_process_transfer e t).1 else t) id

theorem hub_wait_lookup_none (envs : Nat → WaitEnv) :
    ∀ (fuel : Nat) (hub : Hub) (id : Nat), hub_lookup hub id = none →
      hub_lookup (kmo_transfer_hub_wait envs fuel hub).1 id = none := by
  intro fuel
  induction fuel with
  | zero => intro hub id h; exact h
  | succ k ih =>
    intro hub id h
    unfold kmo_transfer_hub_wait
    by_cases hp : hasPending hub = true
    · rw [if_pos hp]
      have hres : hub_lookup (wait_resolve (envs k) hub).1 id = none := by
        rw [wait_resolve_lookup, h]; rfl
      by_cases hd : (wait_resolve (envs k) hub).2 = true
      · rw [if_pos hd]; exact hres
      · rw [if_neg hd]; exact ih _ id hres
    · rw [if_neg hp]; exact h

theorem hub_wait_entry (envs : Nat → WaitEnv) (hH : ∀ k, EnvHonest (envs k)) :
    ∀ (fuel : Nat) (hub : Hub), (∀ p ∈ hub, lenWF p.2) →
      ∀ (id : Nat) (t0 : Transfer), hub_lookup hub id = some t0 →
        ∃ t1, hub_lookup (kmo_transfer_hub_wait envs fuel hub).1 id = some t1 ∧
          t0.trans_len ≤ t1.trans_len ∧ t1.max_len = t0.max_len ∧ lenWF t1 := by
  intro fuel
  induction fuel with
  | zero =>
    intro hub hWF id t0 h0
    exact ⟨t0, h0, le_refl _, rfl, hWF _ (hub_lookup_mem h0)⟩
  | succ k ih =>
    intro hub hWF id t0 h0
    unfold kmo_transfer_hub_wait
    by_cases hp : hasPending hub = true
    · rw [if_pos hp]
      have hwf0 : lenWF t0 := hWF _ (hub_lookup_mem h0)
      have hstep : t0.trans_len ≤
            (if selected t0 = true then (wait_process_transfer (envs k) t0).1 else t0).trans_len ∧
          (if selected t0 = true then (wait_process_transfer (envs k) t0).1 else t0).max_len
            = t0.max_len ∧
          lenWF (if selected t0 = true then (wait_process_transfer (envs k) t0).1 else t0) := by
        split
        · exact wait_process_mono (envs k) t0 (hH k) hwf0
        · exact ⟨le_refl _, rfl, hwf0⟩
      have hres : hub_lookup (wait_resolve (envs k) hub).1 id =
          some (if selected t0 = true then (wait_process_transfer (envs k) t0).1 else t0) := by
        rw [wait_resolve_lookup, h0]; rfl
      have hWF' : ∀ p ∈ (wait_resolve (envs k) hub).1, lenWF p.2 := by
        rw [wait_resolve_fst]
        intro p hpmem
        obtain ⟨q, hq, hqp⟩ := List.mem_map.1 hpmem
        subst hqp
        simp only []
        split
        · exact (wait_process_mono (envs k) q.2 (hH k) (hWF _ hq)).2.2
        · exact hWF _ hq
      by_cases hd : (wait_resolve (envs k) hub).2 = true
      · rw [if_pos hd]
        exact ⟨_, hres, hstep⟩
      · rw [if_neg hd]
        obtain ⟨t1, ht1, hle, hmax, hwf1⟩ := ih _ hWF' id _ hres
        exact ⟨t1, ht1, le_trans hstep.1 hle, by rw [hmax, hstep.2.1], hwf1⟩
    · rw [if_neg hp]
      exact ⟨t0, h0, le_refl _, rfl, hWF _ (hub_lookup_mem h0)⟩

theorem reset_deadline_deadline_pos (t : Transfer) (now : Nat) (h : t.op_timeout ≠ 0) :
    (reset_deadline t now).deadline = deadline_from_timeout t.op_timeout now := by
  unfold reset_deadline
  rw [if_pos h]

theorem wpt_success_deadline (e : WaitEnv) (t : Transfer) (n : Nat)
    (hr : e.ready t.fd t.read_flag = true)
    (hres : (if 0 < u32sub t.max_len t.trans_len
        then e.drv t.fd t.read_flag (u32sub t.max_len t.trans_len)
        else DriverResult.success 0) = .success n)
    (hT : t.op_timeout ≠ 0) :
    (wait_process_transfer e t).1.deadline = deadline_from_timeout t.op_timeout e.now := by
  rw [wpt_ready_success e t n hr hres]
  split <;> simp [reset_deadline, hT]

/-! ### Claims -/

/-- C1: a transfer registered at time `t0` with a positive timeout whose
descriptor is not ready in a pass of the wait loop is left untouched while the
current time has not passed its deadline, and transitions to `ERROR` with
`err_msg` still `NULL` once the current time has passed the deadline, which is
exactly the registration time plus `op_timeout` milliseconds;
`kmo_data_transfer_err` then returns the fixed "timeout occurred" text.  The
last conjunct shows the timeout event is decided by the transfer alone: in a
resolve pass over any hub containing it, its entry is rewritten to exactly this
outcome regardless of the other members and their timeouts. -/
theorem timeout_expiry_errors_without_message (t : Transfer) (t0 : Nat) (e : WaitEnv)
    (hT : 0 < t.op_timeout) (hready : e.ready t.fd t.read_flag = false) :
    (transfer_add_init t t0).deadline = t0 + t.op_timeout * 1000 ∧
      (transfer_add_init t t0).err_msg = none ∧
      (e.now ≤ (transfer_add_init t t0).deadline →
        wait_process_transfer e (transfer_add_init t t0) = (transfer_add_init t t0, false)) ∧
      ((transfer_add_init t t0).deadline < e.now →
        wait_process_transfer e (transfer_add_init t t0) =
          ({ transfer_add_init t t0 with status := .ERROR }, true) ∧
        (wait_process_transfer e (transfer_add_init t t0)).1.err_msg = none ∧
        kmo_data_transfer_err (wait_process_transfer e (transfer_add_init t t0)).1 =
          "timeout occurred") ∧
      (∀ (hub : Hub) (id : Nat), hub_lookup hub id = some (transfer_add_init t t0) →
        (transfer_add_init t t0).deadline < e.now →
        hub_lookup (wait_resolve e hub).1 id =
          some { transfer_add_init t t0 with status := .ERROR }) := by
  refine ⟨?_, rfl, ?_, ?_, ?_⟩
  · show (if t.op_timeout ≠ 0 then deadline_from_timeout t.op_timeout t0 else TIME_MAX)
      = t0 + t.op_timeout * 1000
    rw [if_pos (by omega), deadline_from_timeout_eq]
    omega
  · intro h
    exact wpt_not_ready_live e (transfer_add_init t t0) hready (by omega)
  · intro h
    refine ⟨wpt_not_ready_expired e (transfer_add_init t t0) hready h, ?_, ?_⟩
    · rw [wpt_not_ready_expired e (transfer_add_init t t0) hready h]
      rfl
    · rw [wpt_not_ready_expired e (transfer_add_init t t0) hready h]
      rfl
  · intro hub id hmem h
    rw [wait_resolve_lookup, hmem]
    simp only [Option.map_some']
    rw [if_pos (by rfl), wpt_not_ready_expired e (transfer_add_init t t0) hready h]

/-- C3: under the `add()` preconditions (not a member, `min_len <= max_len`,
valid descriptor), `kmo_transfer_hub_add` makes the transfer a member whose
state is the re-initialized transfer: status `PENDING`, `trans_len = 0`, error
cleared, and deadline equal to the registration time plus `op_timeout`
milliseconds when the timeout is positive, or to the maximum representable
time `TIME_MAX` when the timeout is zero. -/
theorem add_effects (hub : Hub) (id : Nat) (t : Transfer) (now : Nat)
    (hmem : khash_exist hub id = false)
    (hlen : t.min_len ≤ t.max_len) (hfd : t.fd ≠ -1) :
    khash_exist (kmo_transfer_hub_add hub id t now) id = true ∧
      hub_lookup (kmo_transfer_hub_add hub id t now) id = some (transfer_add_init t now) ∧
      (transfer_add_init t now).status = .PENDING ∧
      (transfer_add_init t now).trans_len = 0 ∧
      (transfer_add_init t now).err_msg = none ∧
      (0 < t.op_timeout → (transfer_add_init t now).deadline = now + t.op_timeout * 1000) ∧
      (t.op_timeout = 0 → (transfer_add_init t now).deadline = TIME_MAX) := by
  refine ⟨?_, ?_, rfl, rfl, rfl, ?_, ?_⟩
  · simp [khash_exist, kmo_transfer_hub_add]
  · exact hub_lookup_append_not_mem hub id _ hmem
  · intro h
    show (if t.op_timeout ≠ 0 then deadline_from_timeout t.op_timeout now else TIME_MAX)
      = now + t.op_timeout * 1000
    rw [if_pos (by omega), deadline_from_timeout_eq]
    omega
  · intro h
    show (if t.op_timeout ≠ 0 then deadline_from_timeout t.op_timeout now else TIME_MAX)
      = TIME_MAX
    rw [if_neg (by omega)]

/-- C5: a transfer left in the hub in status `COMPLETED` with
`min_len < max_len` is still selected by the scan, and when its descriptor is
ready and the driver call (requesting the remaining `max_len - trans_len > 0`
bytes) fails, the transfer transitions to `ERROR` with the driver message
stored: `COMPLETED` is not terminal while `trans_len < max_len`. -/
theorem completed_demoted_by_driver_failure (t : Transfer) (e : WaitEnv) (msg : String)
    (hst : t.status = .COMPLETED) (hlt : t.min_len < t.max_len)
    (htr : t.trans_len < t.max_len) (hmax : t.max_len < U32)
    (hready : e.ready t.fd t.read_flag = true)
    (hdrv : e.drv t.fd t.read_flag (t.max_len - t.trans_len) = .failed msg) :
    selected t = true ∧
      wait_process_transfer e t = ({ t with status := .ERROR, err_msg := some msg }, true) := by
  have hsub : u32sub t.max_len t.trans_len = t.max_len - t.trans_len :=
    u32sub_eq_sub (le_of_lt htr) hmax
  refine ⟨?_, ?_⟩
  · simp [selected, hst, hlt]
  · exact wpt_ready_failed e t msg hready (by omega) (by rw [hsub]; exact hdrv)

/-- C7: on a readiness cycle for a ready transfer with a positive timeout, a
success outcome — the driver returning success, or the implicit zero-byte
success when no bytes remain — recomputes the deadline to `op_timeout`
milliseconds past the current time, while a would-block outcome leaves the
transfer completely unchanged and raises no event. -/
theorem success_resets_deadline_wouldblock_frameless (t : Transfer) (e : WaitEnv) (n : Nat)
    (hready : e.ready t.fd t.read_flag = true) :
    ((u32sub t.max_len t.trans_len = 0 ∨
        e.drv t.fd t.read_flag (u32sub t.max_len t.trans_len) = .success n) →
      0 < t.op_timeout →
      (wait_process_transfer e t).1.deadline = t.op_timeout * 1000 + e.now) ∧
      (e.drv t.fd t.read_flag (u32sub t.max_len t.trans_len) = .wouldBlock →
        0 < u32sub t.max_len t.trans_len →
        wait_process_transfer e t = (t, false)) := by
  refine ⟨?_, ?_⟩
  · intro hcase hT
    by_cases hz : 0 < u32sub t.max_len t.trans_len
    · rcases hcase with hz0 | hs
      · omega
      · rw [wpt_success_deadline e t n hready (by rw [if_pos hz]; exact hs) (by omega),
          deadline_from_timeout_eq]
    · rw [wpt_success_deadline e t 0 hready (by rw [if_neg hz]) (by omega),
        deadline_from_timeout_eq]
  · intro hwb hpos
    exact wpt_ready_wouldBlock e t hready hpos hwb

/-- C2 (counterexample): a hub whose single member is `COMPLETED` with
`min_len < max_len` has a selected member, yet `wait()` returns without ever
blocking on `select()` — `done_flag` is only cleared by `PENDING` members, so
the loop breaks at line 137 before reaching `select()`.  This refutes the claim
that the call blocks whenever at least one member is selected. -/
def cexTransfer : Transfer :=
  { read_flag := true, fd := 5, min_len := 0, max_len := 1, trans_len := 0,
    op_timeout := 0, status := .COMPLETED, deadline := TIME_MAX, err_msg := none }

/-- Environment sequence for the counterexample: nothing ready, drivers block,
time frozen at 0. -/
def cexEnvs : Nat → WaitEnv :=
  fun _ => { ready := fun _ _ => false, drv := fun _ _ _ => .wouldBlock, now := 0 }

/-- C2 counterexample theorem: `cexTransfer` is selected by the scan, but the
wait call performs zero `select()` calls. -/
theorem wait_immediate_despite_selected :
    selected cexTransfer = true ∧
      (kmo_transfer_hub_wait cexEnvs 3 [(0, cexTransfer)]).2 = 0 := by
  exact ⟨rfl, rfl⟩

/-- C2 (amended): `wait()` returns without ever blocking on the multiplexing
primitive exactly when no member is `PENDING`; whenever at least one member is
`PENDING`, the call blocks on `select()` at least once.  (Members that are
`COMPLETED` with `min_len < max_len` are selected into the interest sets but do
not by themselves prevent the immediate return.) -/
theorem wait_immediate_iff_no_pending (hub : Hub) (envs : Nat → WaitEnv) (fuel : Nat)
    (hfuel : 0 < fuel) :
    (kmo_transfer_hub_wait envs fuel hub).2 = 0 ↔ hasPending hub = false := by
  cases fuel with
  | zero => omega
  | succ k =>
    unfold kmo_transfer_hub_wait
    by_cases hp : hasPending hub = true
    · rw [if_pos hp, hp]
      by_cases hd : (wait_resolve (envs k) hub).2 = true
      · rw [if_pos hd]
        simp
      · rw [if_neg hd]
        simp
    · rw [if_neg hp]
      simp only [Bool.not_eq_true] at hp
      simp [hp]

/-- C4: when some member is selected (and all selected deadlines are at most
the `TIME_MAX` accumulator seed, as every deadline ever written by the code
is), the deadline computed by the scan is exactly the minimum of the selected
members' deadlines, and the duration handed to `select()` equals that minimum
deadline minus the current time floored at one millisecond: it is never zero,
and is exactly 1ms whenever the minimum deadline is at or before `now + 1ms`. -/
theorem wait_duration_min_deadline_floor (hub : Hub) (now : Nat)
    (hsel : ∃ p ∈ hub, selected p.2 = true)
    (hbound : ∀ p ∈ hub, selected p.2 = true → p.2.deadline ≤ TIME_MAX) :
    1000 ≤ timeToWait hub now ∧
      timeToWait hub now = max 1000 (scanDeadline hub - now) ∧
      (∀ p ∈ hub, selected p.2 = true → scanDeadline hub ≤ p.2.deadline) ∧
      (∃ p ∈ hub, selected p.2 = true ∧ p.2.deadline = scanDeadline hub) ∧
      (scanDeadline hub ≤ now + 1000 → timeToWait hub now = 1000) := by
  have hlb : ∀ p ∈ hub, selected p.2 = true → scanDeadline hub ≤ p.2.deadline :=
    scanFold_le_sel hub TIME_MAX
  have hat : ∃ p ∈ hub, selected p.2 = true ∧ p.2.deadline = scanDeadline hub := by
    rcases scanFold_attained hub TIME_MAX with h | ⟨p, hp, hps, hval⟩
    · obtain ⟨p, hp, hps⟩ := hsel
      refine ⟨p, hp, hps, ?_⟩
      have h1 := scanFold_le_sel hub TIME_MAX p hp hps
      have h2 := hbound p hp hps
      unfold scanDeadline
      omega
    · exact ⟨p, hp, hps, hval.symm⟩
  refine ⟨?_, ?_, hlb, hat, ?_⟩
  · unfold timeToWait
    split <;> omega
  · unfold timeToWait
    split <;> omega
  · intro h
    unfold timeToWait
    rw [if_pos h]

theorem c6_single_pass (t : Transfer) (t0 : Nat) (envs : Nat → WaitEnv)
    (hmin : t.min_len = 0) (hmax : t.max_len = 0)
    (hready : (envs 0).ready t.fd t.read_flag = true) :
    kmo_transfer_hub_wait envs 1 (kmo_transfer_hub_add [] 0 t t0) =
      ([(0, reset_deadline
          { transfer_add_init t t0 with trans_len := u32add 0 0, status := .COMPLETED }
          (envs 0).now)], 1) := by
  have hz : ¬ 0 < u32sub (transfer_add_init t t0).max_len (transfer_add_init t t0).trans_len := by
    show ¬ 0 < u32sub t.max_len 0
    rw [hmax]
    simp [u32sub, U32]
  have hproc : wait_process_transfer (envs 0) (transfer_add_init t t0) =
      (reset_deadline
        { transfer_add_init t t0 with trans_len := u32add 0 0, status := .COMPLETED }
        (envs 0).now, true) := by
    rw [wpt_ready_success (envs 0) (transfer_add_init t t0) 0 hready (by rw [if_neg hz])]
    rw [if_pos ⟨rfl, by show t.min_len ≤ u32add 0 0; omega⟩]
    rfl
  show kmo_transfer_hub_wait envs 1 [(0, transfer_add_init t t0)] = _
  unfold kmo_transfer_hub_wait
  rw [if_pos (by rfl)]
  have hres : wait_resolve (envs 0) [(0, transfer_add_init t t0)] =
      ([(0, (wait_process_transfer (envs 0) (transfer_add_init t t0)).1)],
        (wait_process_transfer (envs 0) (transfer_add_init t t0)).2 || false) := rfl
  rw [hres, hproc]
  rfl

/-- C6: a transfer with `min_len = 0` and `max_len = 0`, added and then waited
on with its descriptor already readable, completes in the first pass with
`trans_len = 0`, and the driver is never consulted: the result of the wait call
is unchanged under any other environment sequence that agrees on readiness and
current time but has an arbitrary different driver. -/
theorem zero_length_completes_without_driver (t : Transfer) (t0 : Nat)
    (envs envs2 : Nat → WaitEnv)
    (hmin : t.min_len = 0) (hmax : t.max_len = 0)
    (hready : (envs 0).ready t.fd t.read_flag = true) :
    (∃ t1, hub_lookup (kmo_transfer_hub_wait envs 1 (kmo_transfer_hub_add [] 0 t t0)).1 0
        = some t1 ∧ t1.status = .COMPLETED ∧ t1.trans_len = 0) ∧
      ((envs2 0).ready = (envs 0).ready → (envs2 0).now = (envs 0).now →
        kmo_transfer_hub_wait envs2 1 (kmo_transfer_hub_add [] 0 t t0) =
          kmo_transfer_hub_wait envs 1 (kmo_transfer_hub_add [] 0 t t0)) := by
  constructor
  · rw [c6_single_pass t t0 envs hmin hmax hready]
    refine ⟨_, rfl, ?_, ?_⟩
    · simp
    · simp [u32add, U32]
  · intro hr hn
    rw [c6_single_pass t t0 envs hmin hmax hready,
      c6_single_pass t t0 envs2 hmin hmax (by rw [hr]; exact hready), hn]

/-- C8: `trans_len` starts at 0 at registration and, provided every driver
success reports at most the requested count (the driver contract) and every
member satisfies the `uint32_t` length invariant, the `trans_len` of every
registered transfer is monotonically non-decreasing across a whole wait call
(hence across successive wait calls, in particular for as long as the status
is `PENDING` or `COMPLETED`). -/
theorem trans_len_monotonic (envs : Nat → WaitEnv) (fuel : Nat) (hub : Hub)
    (t : Transfer) (now : Nat)
    (hHon : ∀ k, EnvHonest (envs k)) (hWF : ∀ p ∈ hub, lenWF p.2) :
    (transfer_add_init t now).trans_len = 0 ∧
      ∀ id t0, hub_lookup hub id = some t0 →
        ∃ t1, hub_lookup (kmo_transfer_hub_wait envs fuel hub).1 id = some t1 ∧
          t0.trans_len ≤ t1.trans_len := by
  refine ⟨rfl, fun id t0 h0 => ?_⟩
  obtain ⟨t1, h1, hle, -, -⟩ := hub_wait_entry envs hHon fuel hub hWF id t0 h0
  exact ⟨t1, h1, hle⟩

/-- C9: removing a transfer right after adding it leaves the transfer state
`PENDING` (removal never touches transfer state), restores the hub, excludes
the transfer from every future wait scan (its entry is absent after any wait
call), and removing a non-member is a no-op. -/
theorem remove_after_add_roundtrip (hub : Hub) (id : Nat) (t : Transfer) (now : Nat)
    (hmem : khash_exist hub id = false) :
    (transfer_add_init t now).status = .PENDING ∧
      kmo_transfer_hub_remove (kmo_transfer_hub_add hub id t now) id = hub ∧
      khash_exist (kmo_transfer_hub_remove (kmo_transfer_hub_add hub id t now) id) id = false ∧
      (∀ h2 : Hub, khash_exist h2 id = false → kmo_transfer_hub_remove h2 id = h2) ∧
      ∀ (envs : Nat → WaitEnv) (fuel : Nat),
        hub_lookup (kmo_transfer_hub_wait envs fuel
          (kmo_transfer_hub_remove (kmo_transfer_hub_add hub id t now) id)).1 id = none := by
  have hrm : kmo_transfer_hub_remove (kmo_transfer_hub_add hub id t now) id = hub := by
    unfold kmo_transfer_hub_remove kmo_transfer_hub_add
    rw [List.filter_append]
    have hnil : List.filter (fun p => decide (p.1 ≠ id)) [(id, transfer_add_init t now)]
        = [] := by simp
    rw [hnil, List.append_nil]
    exact filter_ne_of_not_exist hub id hmem
  refine ⟨rfl, hrm, ?_, ?_, ?_⟩
  · rw [hrm]
    exact hmem
  · exact fun h2 h => filter_ne_of_not_exist h2 id h
  · intro envs fuel
    rw [hrm]
    exact hub_wait_lookup_none envs fuel hub id (khash_exist_false_lookup hub id hmem)

/-- C10: `trans_len` never exceeds `max_len`: it is 0 (hence at most `max_len`)
right after registration; on every readiness cycle the hub requests exactly
`max_len - trans_len` bytes (so at most `max_len` and never past the end of
the caller buffer); and provided every driver success reports at most the
requested count, `trans_len <= max_len` still holds for every member after a
whole wait call. -/
theorem trans_len_bounded_by_max (envs : Nat → WaitEnv) (fuel : Nat) (hub : Hub)
    (t : Transfer) (now : Nat)
    (hHon : ∀ k, EnvHonest (envs k)) (hWF : ∀ p ∈ hub, lenWF p.2) :
    (transfer_add_init t now).trans_len ≤ (transfer_add_init t now).max_len ∧
      (∀ u : Transfer, lenWF u → u32sub u.max_len u.trans_len = u.max_len - u.trans_len) ∧
      ∀ id t0, hub_lookup hub id = some t0 →
        ∃ t1, hub_lookup (kmo_transfer_hub_wait envs fuel hub).1 id = some t1 ∧
          t1.trans_len ≤ t1.max_len := by
  refine ⟨Nat.zero_le _, fun u hu => u32sub_eq_sub hu.1 hu.2, fun id t0 h0 => ?_⟩
  obtain ⟨t1, h1, -, -, hwf1⟩ := hub_wait_entry envs hHon fuel hub hWF id t0 h0
  exact ⟨t1, h1, hwf1.1⟩

/-! ### Witness data and witnesses -/

/-- A configured transfer, not yet registered, with a 1500ms timeout. -/
def witTimeoutTransfer : Transfer :=
  { read_flag := true, fd := 4, min_len := 2, max_len := 8, trans_len := 0,
    op_timeout := 1500, status := .NONE, deadline := 0, err_msg := none }

/-- An environment where nothing is ready and time sits at 2000000us. -/
def witEnvNotReady : WaitEnv :=
  { ready := fun _ _ => false, drv := fun _ _ _ => .wouldBlock, now := 2000000 }

/-- A pending transfer with 1500ms timeout and deadline 5000us. -/
def witPending : Transfer :=
  { read_flag := true, fd := 4, min_len := 2, max_len := 8, trans_len := 0,
    op_timeout := 1500, status := .PENDING, deadline := 5000, err_msg := none }

/-- A completed, not-yet-full transfer. -/
def witCompleted : Transfer :=
  { read_flag := false, fd := 6, min_len := 3, max_len := 10, trans_len := 5,
    op_timeout := 0, status := .COMPLETED, deadline := TIME_MAX, err_msg := none }

/-- An environment whose driver fails every call. -/
def witEnvFail : WaitEnv :=
  { ready := fun _ _ => true, drv := fun _ _ _ => .failed "broken pipe", now := 77 }

/-- An environment whose driver moves one byte per call (capped by the
request), with everything ready. -/
def witEnvSuccess : WaitEnv :=
  { ready := fun _ _ => true, drv := fun _ _ req => .success (min 1 req), now := 3000 }

theorem witEnvSuccess_honest : EnvHonest witEnvSuccess := by
  intro fd rf req n h
  have hn := DriverResult.success.inj h
  omega

/-- A zero-length transfer configuration. -/
def witZero : Transfer :=
  { read_flag := true, fd := 2, min_len := 0, max_len := 0, trans_len := 0,
    op_timeout := 250, status := .NONE, deadline := 0, err_msg := none }

/-- Ready environments for the zero-length witness. -/
def witEnvsReady : Nat → WaitEnv :=
  fun _ => { ready := fun _ _ => true, drv := fun _ _ _ => .failed "never called", now := 900 }

theorem timeout_expiry_errors_without_message_witness :
    0 < witTimeoutTransfer.op_timeout ∧
      (transfer_add_init witTimeoutTransfer 100).deadline = 100 + 1500 * 1000 ∧
      wait_process_transfer witEnvNotReady (transfer_add_init witTimeoutTransfer 100) =
        ({ transfer_add_init witTimeoutTransfer 100 with status := .ERROR }, true) ∧
      kmo_data_transfer_err
        (wait_process_transfer witEnvNotReady (transfer_add_init witTimeoutTransfer 100)).1 =
        "timeout occurred" := by
  have h := timeout_expiry_errors_without_message witTimeoutTransfer 100 witEnvNotReady
    (by decide) rfl
  exact ⟨by decide, h.1, (h.2.2.2.1 (by decide)).1, (h.2.2.2.1 (by decide)).2.2⟩

theorem wait_immediate_iff_no_pending_witness :
    0 < 2 ∧
      ((kmo_transfer_hub_wait cexEnvs 2 [(0, cexTransfer)]).2 = 0 ↔
        hasPending [(0, cexTransfer)] = false) :=
  ⟨by decide, wait_immediate_iff_no_pending [(0, cexTransfer)] cexEnvs 2 (by decide)⟩

theorem add_effects_witness :
    khash_exist [(7, witTimeoutTransfer)] 9 = false ∧
      witTimeoutTransfer.min_len ≤ witTimeoutTransfer.max_len ∧
      witTimeoutTransfer.fd ≠ -1 ∧
      hub_lookup (kmo_transfer_hub_add [(7, witTimeoutTransfer)] 9 witTimeoutTransfer 100) 9 =
        some (transfer_add_init witTimeoutTransfer 100) :=
  ⟨by decide, by decide, by decide,
    (add_effects [(7, witTimeoutTransfer)] 9 witTimeoutTransfer 100 (by decide) (by decide)
      (by decide)).2.1⟩

theorem wait_duration_min_deadline_floor_witness :
    selected witPending = true ∧
      timeToWait [(0, witPending)] 10000 = max 1000 (scanDeadline [(0, witPending)] - 10000) ∧
      1000 ≤ timeToWait [(0, witPending)] 1000 :=
  ⟨by decide,
    (wait_duration_min_deadline_floor [(0, witPending)] 10000
      ⟨(0, witPending), by decide, by decide⟩ (by decide)).2.1,
    (wait_duration_min_deadline_floor [(0, witPending)] 1000
      ⟨(0, witPending), by decide, by decide⟩ (by decide)).1⟩

theorem completed_demoted_by_driver_failure_witness :
    witCompleted.status = .COMPLETED ∧
      witCompleted.trans_len < witCompleted.max_len ∧
      wait_process_transfer witEnvFail witCompleted =
        ({ witCompleted with status := .ERROR, err_msg := some "broken pipe" }, true) :=
  ⟨by decide, by decide,
    (completed_demoted_by_driver_failure witCompleted witEnvFail "broken pipe" rfl (by decide)
      (by decide) (by decide) rfl rfl).2⟩

theorem zero_length_completes_without_driver_witness :
    witZero.min_len = 0 ∧ witZero.max_len = 0 ∧
      ∃ t1,
        hub_lookup (kmo_transfer_hub_wait witEnvsReady 1
            (kmo_transfer_hub_add [] 0 witZero 50)).1 0 = some t1 ∧
          t1.status = .COMPLETED ∧ t1.trans_len = 0 :=
  ⟨rfl, rfl,
    (zero_length_completes_without_driver witZero 50 witEnvsReady witEnvsReady rfl rfl rfl).1⟩

theorem success_resets_deadline_wouldblock_frameless_witness :
    witEnvSuccess.ready witPending.fd witPending.read_flag = true ∧
      0 < witPending.op_timeout ∧
      (wait_process_transfer witEnvSuccess witPending).1.deadline =
        witPending.op_timeout * 1000 + witEnvSuccess.now :=
  ⟨rfl, by decide,
    (success_resets_deadline_wouldblock_frameless witPending witEnvSuccess 1 rfl).1
      (Or.inr rfl) (by decide)⟩

theorem trans_len_monotonic_witness :
    (transfer_add_init witPending 0).trans_len = 0 ∧
      ∃ t1,
        hub_lookup (kmo_transfer_hub_wait (fun _ => witEnvSuccess) 2 [(3, witPending)]).1 3 =
          some t1 ∧ witPending.trans_len ≤ t1.trans_len := by
  have h := trans_len_monotonic (fun _ => witEnvSuccess) 2 [(3, witPending)] witPending 0
    (fun _ => witEnvSuccess_honest)
    (by intro p hp; rw [List.mem_singleton] at hp; subst hp; exact ⟨by decide, by decide⟩)
  exact ⟨h.1, h.2 3 witPending rfl⟩

theorem remove_after_add_roundtrip_witness :
    khash_exist [(7, witTimeoutTransfer)] 9 = false ∧
      kmo_transfer_hub_remove (kmo_transfer_hub_add [(7, witTimeoutTransfer)] 9 witPending 100) 9
        = [(7, witTimeoutTransfer)] :=
  ⟨by decide,
    (remove_after_add_roundtrip [(7, witTimeoutTransfer)] 9 witPending 100 (by decide)).2.1⟩

theorem trans_len_bounded_by_max_witness :
    (transfer_add_init witPending 0).trans_len ≤ (transfer_add_init witPending 0).max_len ∧
      ∃ t1,
        hub_lookup (kmo_transfer_hub_wait (fun _ => witEnvSuccess) 2 [(3, witPending)]).1 3 =
          some t1 ∧ t1.trans_len ≤ t1.max_len := by
  have h := trans_len_bounded_by_max (fun _ => witEnvSuccess) 2 [(3, witPending)] witPending 0
    (fun _ => witEnvSuccess_honest)
    (by intro p hp; rw [List.mem_singleton] at hp; subst hp; exact ⟨by decide, by decide⟩)
  exact ⟨h.1, h.2.2 3 witPending rfl⟩
